import Mathlib

/-!
Verification development for the WxBot weather bot (src/cache.py, src/storage.py,
src/main.py).  Python dicts are embedded as association lists over `String`
keys with dict-faithful operations (lookup, insert-or-overwrite-in-place,
pop).  Wall-clock times (`time.time()`, floats in Python) are embedded as
rationals; TTLs (`int` in Python) as integers.  Latitude/longitude enter two
different mechanisms: the cache-key rounding (modelled exactly over `ℚ`) and
the haversine trigonometry (modelled over `ℝ`).
-/

namespace WxBot

/-! Python dict embedding: (association lists, `String` keys) -/

/-- Lookup `d.get(k)`: first (and, under `NodupKeys`, only) binding of `k`. -/
def dget {α : Type} : List (String × α) → String → Option α
  | [], _ => none
  | (k', v) :: rest, k => if k' = k then some v else dget rest k

/-- Update `d[k] = v`: overwrite in place if `k` is bound, else append (Python
dicts keep the original position of an overwritten key and append new
keys at the end). -/
def dset {α : Type} : List (String × α) → String → α → List (String × α)
  | [], k, v => [(k, v)]
  | (k', v') :: rest, k, v =>
      if k' = k then (k, v) :: rest else (k', v') :: dset rest k v

/-- Removal `d.pop(k, None)`: remove every binding of `k` (under `NodupKeys` there
is at most one, matching the dict). -/
def dpop {α : Type} : List (String × α) → String → List (String × α)
  | [], _ => []
  | (k', v') :: rest, k =>
      if k' = k then dpop rest k else (k', v') :: dpop rest k

/-- The invariant every Python dict satisfies: keys are pairwise distinct. -/
def NodupKeys {α : Type} (d : List (String × α)) : Prop :=
  d.Pairwise (fun a b => a.1 ≠ b.1)

theorem dget_dset_self {α : Type} (d : List (String × α)) (k : String) (v : α) :
    dget (dset d k v) k = some v := by
  induction d with
  | nil => simp [dget, dset]
  | cons hd tl ih =>
      obtain ⟨k', v'⟩ := hd
      by_cases h : k' = k
      · simp [dget, dset, h]
      · simp [dget, dset, h, ih]

theorem dget_dset_ne {α : Type} (d : List (String × α)) (k k' : String) (v : α)
    (h : k' ≠ k) : dget (dset d k v) k' = dget d k' := by
  induction d with
  | nil => simp [dget, dset, Ne.symm h]
  | cons hd tl ih =>
      obtain ⟨k₀, v₀⟩ := hd
      by_cases h₀ : k₀ = k
      · subst h₀
        simp [dget, dset, Ne.symm h]
      · simp only [dset, if_neg h₀, dget]
        by_cases h₁ : k₀ = k'
        · simp [h₁]
        · simp [h₁, ih]

theorem dget_dpop_self {α : Type} (d : List (String × α)) (k : String) :
    dget (dpop d k) k = none := by
  induction d with
  | nil => simp [dget, dpop]
  | cons hd tl ih =>
      obtain ⟨k', v'⟩ := hd
      by_cases h : k' = k
      · simp [dpop, h, ih]
      · simp [dpop, h, dget, ih]

theorem dget_dpop_ne {α : Type} (d : List (String × α)) (k k' : String)
    (h : k' ≠ k) : dget (dpop d k) k' = dget d k' := by
  induction d with
  | nil => simp [dget, dpop]
  | cons hd tl ih =>
      obtain ⟨k₀, v₀⟩ := hd
      by_cases h₀ : k₀ = k
      · subst h₀
        simp [dpop, dget, Ne.symm h, ih]
      · simp only [dpop, if_neg h₀, dget]
        by_cases h₁ : k₀ = k'
        · simp [h₁]
        · simp [h₁, ih]

theorem mem_dset {α : Type} {d : List (String × α)} {k : String} {v : α}
    {a : String × α} (ha : a ∈ dset d k v) : a.1 = k ∨ a ∈ d := by
  induction d with
  | nil =>
      simp only [dset, List.mem_singleton] at ha
      left; rw [ha]
  | cons hd tl ih =>
      obtain ⟨k₀, v₀⟩ := hd
      rw [dset] at ha
      by_cases h₀ : k₀ = k
      · rw [if_pos h₀] at ha
        rcases List.mem_cons.1 ha with hh | hh
        · left; rw [hh]
        · right; exact List.mem_cons_of_mem _ hh
      · rw [if_neg h₀] at ha
        rcases List.mem_cons.1 ha with hh | hh
        · right; exact hh ▸ List.mem_cons_self _ _
        · rcases ih hh with h | h
          · left; exact h
          · right; exact List.mem_cons_of_mem _ h

theorem nodupKeys_dset {α : Type} (d : List (String × α)) (k : String) (v : α)
    (h : NodupKeys d) : NodupKeys (dset d k v) := by
  induction d with
  | nil =>
      rw [NodupKeys]; simp [dset]
  | cons hd tl ih =>
      obtain ⟨k₀, v₀⟩ := hd
      rw [NodupKeys, List.pairwise_cons] at h
      by_cases h₀ : k₀ = k
      · subst h₀
        rw [dset, if_pos rfl, NodupKeys, List.pairwise_cons]
        exact ⟨h.1, h.2⟩
      · rw [dset, if_neg h₀, NodupKeys, List.pairwise_cons]
        refine ⟨?_, ih h.2⟩
        intro a ha
        rcases mem_dset ha with hh | hh
        · rw [hh]; exact h₀
        · exact h.1 a hh

theorem dpop_of_not_mem {α : Type} (d : List (String × α)) (k : String)
    (h : ∀ a ∈ d, a.1 ≠ k) : dpop d k = d := by
  induction d with
  | nil => rfl
  | cons hd tl ih =>
      obtain ⟨k₀, v₀⟩ := hd
      rw [dpop, if_neg (h (k₀, v₀) (List.mem_cons_self _ _)),
        ih (fun a ha => h a (List.mem_cons_of_mem _ ha))]

theorem length_dpop {α : Type} (d : List (String × α)) (k : String)
    (hnd : NodupKeys d) (hmem : (dget d k).isSome) :
    (dpop d k).length + 1 = d.length := by
  induction d with
  | nil => simp [dget] at hmem
  | cons hd tl ih =>
      obtain ⟨k₀, v₀⟩ := hd
      rw [NodupKeys, List.pairwise_cons] at hnd
      by_cases h₀ : k₀ = k
      · subst h₀
        rw [dpop, if_pos rfl,
          dpop_of_not_mem tl k₀ (fun a ha => (hnd.1 a ha).symm)]
        simp
      · rw [dget, if_neg h₀] at hmem
        rw [dpop, if_neg h₀]
        simp only [List.length_cons]
        rw [ih hnd.2 hmem]

/-! TTL cache.

Embeds `get`/`set` from src/cache.py; the functions `cache_get`/`cache_set` of src/main.py
(lines 118-133) are a verbatim copy of the same code, so one embedding
covers both.  A store entry is `(key, (expires_at, value))`; `now` (the
`time.time()` call at the top of each Python function) is passed explicitly. -/

abbrev CacheStore (V : Type) := List (String × (ℚ × V))

/-- Function `get(key)`: return cached value, or `none` if missing/expired; an
expired entry is popped (lazy eviction).  Returns the result together with
the store after the call. -/
def cache_get {V : Type} (now : ℚ) (store : CacheStore V) (key : String) :
    Option V × CacheStore V :=
  match dget store key with
  | none => (none, store)
  | some (exp, val) =>
      if exp ≤ now then (none, dpop store key) else (some val, store)

/-- Function `set(key, value, ttl_seconds)`: store with `expires_at = now + ttl`. -/
def cache_set {V : Type} (now : ℚ) (store : CacheStore V) (key : String)
    (value : V) (ttl_seconds : ℤ) : CacheStore V :=
  dset store key ((now + ttl_seconds, value))

/-- C2: for every key `k` and value `v`, `set(k, v, ttl)` with `ttl > 0`
followed by `get(k)` at any time `t` before the expiry `now + ttl` returns
exactly `v`. -/
theorem cache_set_then_get {V : Type} (store : CacheStore V) (k : String)
    (v : V) (ttl : ℤ) (now t : ℚ) (httl : 0 < ttl) (ht : t < now + ttl) :
    (cache_get t (cache_set now store k v ttl) k).1 = some v := by
  unfold cache_get cache_set
  rw [dget_dset_self]
  simp [not_le.2 ht]

theorem cache_set_then_get_witness :
    (cache_get 0 (cache_set 0 ([] : CacheStore ℕ) "obs:KMWL" 7 300) "obs:KMWL").1
      = some 7 :=
  cache_set_then_get [] "obs:KMWL" 7 300 0 0 (by decide) (by norm_num)

/-- C3: after `set(k, v, ttl)`, once the current time reaches the expiry
`now + ttl`, `get(k)` returns `none` and removes the entry: the key is no
longer bound in the resulting store, and the size of the store drops by one. -/
theorem cache_get_expired_evicts {V : Type} (store : CacheStore V)
    (k : String) (v : V) (ttl : ℤ) (now t : ℚ)
    (hnd : NodupKeys store) (ht : now + ttl ≤ t) :
    (cache_get t (cache_set now store k v ttl) k).1 = none ∧
    dget (cache_get t (cache_set now store k v ttl) k).2 k = none ∧
    (cache_get t (cache_set now store k v ttl) k).2.length + 1 =
      (cache_set now store k v ttl).length := by
  unfold cache_get cache_set
  rw [dget_dset_self]
  simp only [if_pos ht]
  exact ⟨trivial, dget_dpop_self _ _,
    length_dpop _ _ (nodupKeys_dset _ _ _ hnd)
      (by rw [dget_dset_self]; rfl)⟩

theorem cache_get_expired_evicts_witness :
    (cache_get 5 (cache_set 0 ([] : CacheStore ℕ) "a" 7 5) "a").1 = none ∧
    dget (cache_get 5 (cache_set 0 ([] : CacheStore ℕ) "a" 7 5) "a").2 "a" = none ∧
    (cache_get 5 (cache_set 0 ([] : CacheStore ℕ) "a" 7 5) "a").2.length + 1 =
      (cache_set 0 ([] : CacheStore ℕ) "a" 7 5).length :=
  cache_get_expired_evicts [] "a" 7 5 0 5 List.Pairwise.nil (by norm_num)

/-- C4: `set` on an existing key replaces both value and expiry: after
`set(k, v1, ttlLong)` at `t0` and then `set(k, v2, ttlShort)` at `t1`,
`get(k)` never returns `v1` at any time, and at a time `t` past the newer
expiry `t1 + ttlShort` (even while still before the expiry of the first write
`t0 + ttlLong`) it returns `none`. -/
theorem cache_set_overwrites {V : Type} (store : CacheStore V) (k : String)
    (v1 v2 : V) (ttlLong ttlShort : ℤ) (t0 t1 t : ℚ)
    (hne : v1 ≠ v2) (hexp : t1 + ttlShort ≤ t) (hlong : t < t0 + ttlLong) :
    (∀ s : ℚ,
      (cache_get s
        (cache_set t1 (cache_set t0 store k v1 ttlLong) k v2 ttlShort) k).1
        ≠ some v1) ∧
    (cache_get t
      (cache_set t1 (cache_set t0 store k v1 ttlLong) k v2 ttlShort) k).1
      = none := by
  constructor
  · intro s
    unfold cache_get cache_set
    rw [dget_dset_self]
    by_cases hs : t1 + (ttlShort : ℚ) ≤ s
    · simp [hs]
    · simp only [if_neg hs]
      simp [Ne.symm hne]
  · unfold cache_get cache_set
    rw [dget_dset_self]
    simp [hexp]

theorem cache_set_overwrites_witness :
    (∀ s : ℚ,
      (cache_get s
        (cache_set 0 (cache_set 0 ([] : CacheStore ℕ) "k" 0 100) "k" 1 1) "k").1
        ≠ some 0) ∧
    (cache_get 1
      (cache_set 0 (cache_set 0 ([] : CacheStore ℕ) "k" 0 100) "k" 1 1) "k").1
      = none :=
  cache_set_overwrites [] "k" 0 1 100 1 0 0 1 (by decide) (by norm_num)
    (by norm_num)

/-! Saved-location storage.

Embeds `save_location` / `get_location` / `delete_location` from
src/storage.py; src/main.py lines 75-97 are a verbatim copy operating on a
different file path.  The persisted JSON file is a dict from user id to a
dict from location name to an entry, modelled as nested association lists;
`_load`/`_save` become explicit state passing (each function receives the
current file contents and returns the new ones). -/

abbrev LocStore (α : Type) := List (String × List (String × α))

/-- Function `save_location(user_id, name, entry)`: read-modify-write of the store. -/
def save_location {α : Type} (store : LocStore α) (user_id name : String)
    (entry : α) : LocStore α :=
  let user := (dget store user_id).getD []
  dset store user_id (dset user name entry)

/-- Function `get_location(user_id, name)`: `data.get(user_id, {}).get(name)`. -/
def get_location {α : Type} (store : LocStore α) (user_id name : String) :
    Option α :=
  dget ((dget store user_id).getD []) name

/-- Function `delete_location(user_id, name)`: delete and report `True` when the
entry exists, otherwise leave the file untouched and report `False`.
Returns `(returned bool, store after the call)`. -/
def delete_location {α : Type} (store : LocStore α) (user_id name : String) :
    Bool × LocStore α :=
  match dget store user_id with
  | some user =>
      if (dget user name).isSome then
        (true, dset store user_id (dpop user name))
      else (false, store)
  | none => (false, store)

/-- C8: `save_location(u, n, e)` followed by `get_location(u, n)` returns
exactly `e`, and `delete_location(u, n)` followed by `get_location(u, n)`
returns `none`, from every starting store. -/
theorem save_get_delete_roundtrip {α : Type} (store : LocStore α)
    (u n : String) (e : α) :
    get_location (save_location store u n e) u n = some e ∧
    get_location (delete_location store u n).2 u n = none := by
  constructor
  · unfold get_location save_location
    rw [dget_dset_self]
    exact dget_dset_self _ _ _
  · unfold get_location delete_location
    cases hu : dget store u with
    | none => simp [hu, dget]
    | some user =>
        by_cases hn : (dget user n).isSome
        · simp only [hn, if_pos]
          rw [dget_dset_self]
          exact dget_dpop_self _ _
        · simp only [hn]
          simp only [Bool.false_eq_true, if_false]
          rw [hu]
          simp at hn
          simp [hn]

/-- C10: `delete_location(u, n)` returns `true` iff an entry for `(u, n)`
existed; on `false` the store is completely unchanged; on `true` only the
`(u, n)` entry is removed — `get_location` on every other `(u', n')` pair
is unchanged. -/
theorem delete_location_frame {α : Type} (store : LocStore α)
    (u n : String) :
    ((delete_location store u n).1 = true ↔
      get_location store u n ≠ none) ∧
    ((delete_location store u n).1 = false →
      (delete_location store u n).2 = store) ∧
    ((delete_location store u n).1 = true →
      get_location (delete_location store u n).2 u n = none ∧
      ∀ u' n' : String, ¬(u' = u ∧ n' = n) →
        get_location (delete_location store u n).2 u' n' =
          get_location store u' n') := by
  refine ⟨?_, ?_, ?_⟩
  · unfold delete_location get_location
    cases hu : dget store u with
    | none => simp [hu, dget]
    | some user =>
        by_cases hn : (dget user n).isSome
        · simp only [hn, if_pos, Option.getD_some]
          simpa using Option.isSome_iff_ne_none.1 hn
        · simp only [hn, Bool.false_eq_true, if_false, Option.getD_some]
          simp only [Option.isSome_iff_ne_none, ne_eq, not_not] at hn
          simp [hn]
  · unfold delete_location
    cases hu : dget store u with
    | none => simp
    | some user =>
        by_cases hn : (dget user n).isSome
        · simp [hn]
        · simp [hn]
  · intro htrue
    unfold delete_location at htrue ⊢
    cases hu : dget store u with
    | none => rw [hu] at htrue; simp at htrue
    | some user =>
        rw [hu] at htrue
        by_cases hn : (dget user n).isSome
        · simp only [hn, if_pos]
          constructor
          · unfold get_location
            rw [dget_dset_self]
            exact dget_dpop_self _ _
          · intro u' n' hne
            unfold get_location
            by_cases hu' : u' = u
            · subst hu'
              rw [dget_dset_self, hu]
              have hn' : n' ≠ n := fun hh => hne ⟨rfl, hh⟩
              exact dget_dpop_ne _ _ _ hn'
            · rw [dget_dset_ne _ _ _ _ hu']
        · simp [hn] at htrue

theorem delete_location_frame_witness :
    get_location
      (delete_location ([("42", [("home", (0 : ℕ))])] : LocStore ℕ)
        "42" "home").2 "42" "home" = none ∧
    get_location
      (delete_location ([("42", [("home", (0 : ℕ))])] : LocStore ℕ)
        "42" "home").2 "42" "other" =
      get_location ([("42", [("home", (0 : ℕ))])] : LocStore ℕ) "42" "other" ∧
    (delete_location ([("42", [("home", (0 : ℕ))])] : LocStore ℕ)
        "42" "work").2 = [("42", [("home", (0 : ℕ))])] :=
  ⟨((delete_location_frame [("42", [("home", (0 : ℕ))])] "42" "home").2.2
      (by decide)).1,
   ((delete_location_frame [("42", [("home", (0 : ℕ))])] "42" "home").2.2
      (by decide)).2 "42" "other" (by decide),
   (delete_location_frame [("42", [("home", (0 : ℕ))])] "42" "work").2.1
      (by decide)⟩

/-! Cache keys and cached fetch wrappers (src/main.py lines 244-266)

`round(x, 3)` is modelled exactly on the rational value with Python's
ties-to-even rounding; the f-string rendering of the rounded float is
modelled by `fmtMilli`.  The upstream fetch inside each wrapper is a
parameter of type `Except E V`: `Except.error` models a raised exception. -/

/-- The Python built-in `round` to the nearest integer, with ties going
to the even neighbor, on the idealized rational value. -/
def pyRoundHalfEven (x : ℚ) : ℤ :=
  let f := ⌊x⌋
  let r := x - (f : ℚ)
  if r < 1/2 then f
  else if 1/2 < r then f + 1
  else if f % 2 = 0 then f else f + 1

/-- Value of `round(x, 3)` scaled by 1000 to an integer count of thousandths. -/
def round3milli (x : ℚ) : ℤ := pyRoundHalfEven (x * 1000)

/-- Value of `round(x, 3)` as a rational. -/
def round3 (x : ℚ) : ℚ := (round3milli x : ℚ) / 1000

/-- Renders the rounded coordinate (given as thousandths) the way a Python
f-string renders the float `round(x, 3)`: integer part, a dot, and the
fractional digits with trailing zeros dropped but at least one digit. -/
def fmtMilli (n : ℤ) : String :=
  let sign := if n < 0 then "-" else ""
  let m := n.natAbs
  let ip := m / 1000
  let fr := m % 1000
  let d1 := fr / 100
  let d2 := fr / 10 % 10
  let d3 := fr % 10
  let fracStr :=
    if d3 ≠ 0 then toString d1 ++ toString d2 ++ toString d3
    else if d2 ≠ 0 then toString d1 ++ toString d2
    else toString d1
  sign ++ toString ip ++ "." ++ fracStr

/-- ASCII model of `str.upper()` on station identifiers, written by structural
recursion on the character list so that it evaluates inside the kernel
(`String.toUpper` is equivalent on ASCII input but is defined by
well-founded recursion). -/
def asciiUpper (s : String) : String :=
  String.mk (s.data.map fun c =>
    if 'a' ≤ c ∧ c ≤ 'z' then Char.ofNat (c.toNat - 32) else c)

/-- The key computed by `fetch_latest_obs_cached`: `f"obs:{station_id.upper()}"`. -/
def obs_cache_key (station_id : String) : String :=
  "obs:" ++ asciiUpper station_id

/-- The key computed by `fetch_forecast_periods_cached`:
`f"fc:{lat_k}:{lon_k}"` with `lat_k = round(lat, 3)`, `lon_k = round(lon, 3)`. -/
def fc_cache_key (lat lon : ℚ) : String :=
  "fc:" ++ fmtMilli (round3milli lat) ++ ":" ++ fmtMilli (round3milli lon)

/-- Wrapper `fetch_latest_obs_cached(station_id, ttl)`: return a cache hit if any,
otherwise run the upstream fetch and cache the result only on success.
Returns (outcome, store after the call, whether the fetch was attempted). -/
def fetch_latest_obs_cached {V E : Type} (now : ℚ) (store : CacheStore V)
    (station_id : String) (fetch : Except E V) (ttl : ℤ) :
    Except E V × CacheStore V × Bool :=
  match cache_get now store (obs_cache_key station_id) with
  | (some hit, store') => (Except.ok hit, store', false)
  | (none, store') =>
      match fetch with
      | Except.error e => (Except.error e, store', true)
      | Except.ok v =>
          (Except.ok v,
            cache_set now store' (obs_cache_key station_id) v ttl, true)

/-- Wrapper `fetch_forecast_periods_cached(lat, lon, ttl)`: same shape as the
observation wrapper, keyed by the rounded coordinates (the upstream fetch
is invoked on the rounded coordinates as well; its outcome is `fetch`). -/
def fetch_forecast_periods_cached {V E : Type} (now : ℚ)
    (store : CacheStore V) (lat lon : ℚ) (fetch : Except E V) (ttl : ℤ) :
    Except E V × CacheStore V × Bool :=
  match cache_get now store (fc_cache_key lat lon) with
  | (some hit, store') => (Except.ok hit, store', false)
  | (none, store') =>
      match fetch with
      | Except.error e => (Except.error e, store', true)
      | Except.ok v =>
          (Except.ok v, cache_set now store' (fc_cache_key lat lon) v ttl, true)

/-! Concrete evaluations of the rounding, used to instantiate theorems. -/

theorem round3milli_ex1 : round3milli (1.0001 : ℚ) = 1000 := by
  unfold round3milli pyRoundHalfEven
  have hx : (1.0001 : ℚ) * 1000 = 10001/10 := by norm_num
  rw [hx]
  have hf : ⌊(10001/10 : ℚ)⌋ = 1000 := by
    rw [Int.floor_eq_iff]
    norm_num
  rw [hf]
  norm_num

theorem round3milli_ex2 : round3milli (0.9999 : ℚ) = 1000 := by
  unfold round3milli pyRoundHalfEven
  have hx : (0.9999 : ℚ) * 1000 = 9999/10 := by norm_num
  rw [hx]
  have hf : ⌊(9999/10 : ℚ)⌋ = 999 := by
    rw [Int.floor_eq_iff]
    norm_num
  rw [hf]
  norm_num

theorem round3milli_ex3 : round3milli (2 : ℚ) = 2000 := by
  unfold round3milli pyRoundHalfEven
  have hx : (2 : ℚ) * 1000 = 2000 := by norm_num
  rw [hx]
  have hf : ⌊(2000 : ℚ)⌋ = 2000 := by
    rw [Int.floor_eq_iff]
    norm_num
  rw [hf]
  norm_num

theorem round3milli_ex4 : round3milli (2.0004 : ℚ) = 2000 := by
  unfold round3milli pyRoundHalfEven
  have hx : (2.0004 : ℚ) * 1000 = 10002/5 := by norm_num
  rw [hx]
  have hf : ⌊(10002/5 : ℚ)⌋ = 2000 := by
    rw [Int.floor_eq_iff]
    norm_num
  rw [hf]
  norm_num

theorem round3milli_eq_of_round3_eq {x y : ℚ} (h : round3 x = round3 y) :
    round3milli x = round3milli y := by
  unfold round3 at h
  have h' : ((round3milli x : ℚ)) = ((round3milli y : ℚ)) := by
    field_simp at h
    exact_mod_cast h
  exact_mod_cast h'

/-- C7: the observation wrapper keys by `"obs:" ++` the uppercased station
id; the key of the forecast wrapper is determined by the 3-decimal roundings of
the coordinates, so two query points with equal roundings produce the same
key, and a second query (at a time before the entry stored by the first
query expires) hits the entry of the first query: it returns that
fetched value without attempting a fetch of its own. -/
theorem cache_key_scheme {V E : Type} (s : String) (lat1 lon1 lat2 lon2 : ℚ)
    (store : CacheStore V) (now t : ℚ) (v : V) (fetch2 : Except E V)
    (ttl : ℤ) (hlat : round3 lat1 = round3 lat2)
    (hlon : round3 lon1 = round3 lon2) :
    obs_cache_key s = "obs:" ++ asciiUpper s ∧
    fc_cache_key lat1 lon1 = fc_cache_key lat2 lon2 ∧
    (dget store (fc_cache_key lat1 lon1) = none → t < now + ttl →
      (fetch_forecast_periods_cached t
          (fetch_forecast_periods_cached now store lat1 lon1
            (Except.ok v : Except E V) ttl).2.1
          lat2 lon2 fetch2 ttl).1 = Except.ok v ∧
      (fetch_forecast_periods_cached t
          (fetch_forecast_periods_cached now store lat1 lon1
            (Except.ok v : Except E V) ttl).2.1
          lat2 lon2 fetch2 ttl).2.2 = false) := by
  have hkey : fc_cache_key lat1 lon1 = fc_cache_key lat2 lon2 := by
    unfold fc_cache_key
    rw [round3milli_eq_of_round3_eq hlat, round3milli_eq_of_round3_eq hlon]
  refine ⟨rfl, hkey, ?_⟩
  intro hmiss ht
  have h1 :
      (fetch_forecast_periods_cached now store lat1 lon1
        (Except.ok v : Except E V) ttl).2.1 =
      cache_set now store (fc_cache_key lat1 lon1) v ttl := by
    unfold fetch_forecast_periods_cached cache_get
    rw [hmiss]
  rw [h1]
  unfold fetch_forecast_periods_cached cache_get cache_set
  rw [← hkey, dget_dset_self]
  simp [not_le.2 ht]

theorem cache_key_scheme_witness :
    fc_cache_key 1.0001 2 = fc_cache_key 0.9999 2.0004 ∧
    (fetch_forecast_periods_cached 0
        (fetch_forecast_periods_cached 0 ([] : CacheStore ℕ) 1.0001 2
          (Except.ok 5 : Except Unit ℕ) 900).2.1
        0.9999 2.0004 (Except.error () : Except Unit ℕ) 900).1
      = Except.ok 5 ∧
    (fetch_forecast_periods_cached 0
        (fetch_forecast_periods_cached 0 ([] : CacheStore ℕ) 1.0001 2
          (Except.ok 5 : Except Unit ℕ) 900).2.1
        0.9999 2.0004 (Except.error () : Except Unit ℕ) 900).2.2 = false := by
  have h := cache_key_scheme (E := Unit) "kmwl" 1.0001 2 0.9999 2.0004
    ([] : CacheStore ℕ) 0 0 5 (Except.error ()) 900
    (by unfold round3; rw [round3milli_ex1, round3milli_ex2])
    (by unfold round3; rw [round3milli_ex3, round3milli_ex4])
  exact ⟨h.2.1, (h.2.2 rfl (by norm_num)).1, (h.2.2 rfl (by norm_num)).2⟩

/-- C9 counterexample: the cache state after a failed fetch does NOT always
equal the state before the call — when the queried key holds an expired
entry, the `cache_get` at the top of the wrapper lazily evicts it even
though the fetch then fails. -/
theorem failed_fetch_can_evict_stale :
    (fetch_latest_obs_cached 10 ([("obs:KAAA", ((5 : ℚ), (0 : ℕ)))])
        "KAAA" (Except.error ()) 300).2.1
      ≠ [("obs:KAAA", ((5 : ℚ), (0 : ℕ)))] := by
  have hkey : obs_cache_key "KAAA" = "obs:KAAA" := by decide
  unfold fetch_latest_obs_cached cache_get
  rw [hkey]
  norm_num [dget, dpop]

theorem obs_cached_unbound_attempts {V E : Type} (t : ℚ) (S : CacheStore V)
    (station : String) (fetch2 : Except E V) (ttl : ℤ)
    (h : dget S (obs_cache_key station) = none) :
    (fetch_latest_obs_cached t S station fetch2 ttl).2.2 = true := by
  unfold fetch_latest_obs_cached cache_get
  rw [h]
  cases fetch2 with
  | error e => rfl
  | ok v => rfl

theorem fc_cached_unbound_attempts {V E : Type} (t : ℚ) (S : CacheStore V)
    (lat lon : ℚ) (fetch2 : Except E V) (ttl : ℤ)
    (h : dget S (fc_cache_key lat lon) = none) :
    (fetch_forecast_periods_cached t S lat lon fetch2 ttl).2.2 = true := by
  unfold fetch_forecast_periods_cached cache_get
  rw [h]
  cases fetch2 with
  | error e => rfl
  | ok v => rfl

theorem cache_get_none_dget {V : Type} (now : ℚ) (store : CacheStore V)
    (k : String) (h : (cache_get now store k).1 = none) :
    dget (cache_get now store k).2 k = none := by
  unfold cache_get at h ⊢
  cases hd : dget store k with
  | none => exact hd
  | some p =>
      obtain ⟨exp, val⟩ := p
      rw [hd] at h
      by_cases he : exp ≤ now
      · simp only [hd, if_pos he]
        exact dget_dpop_self _ _
      · simp [he] at h

/-- C9 (amended): when the upstream fetch inside a cached wrapper fails on
a cache miss, the error is propagated and no entry is written: the
resulting store is exactly the store left by the initial `cache_get`
(which differs from the pre-call store at most by lazy eviction of an
already-expired entry for the queried key), the queried key is unbound
afterwards, so a later request for the same key misses and attempts the
network call again.  Stated for both wrappers. -/
theorem failed_fetch_writes_nothing {V E : Type} (now t : ℚ)
    (store : CacheStore V) (station : String) (lat lon : ℚ) (ttl : ℤ)
    (e : E) (fetch2 : Except E V)
    (hm1 : (cache_get now store (obs_cache_key station)).1 = none)
    (hm2 : (cache_get now store (fc_cache_key lat lon)).1 = none) :
    (fetch_latest_obs_cached now store station (Except.error e) ttl).1
      = Except.error e ∧
    (fetch_latest_obs_cached now store station (Except.error e) ttl).2.1
      = (cache_get now store (obs_cache_key station)).2 ∧
    dget (fetch_latest_obs_cached now store station
      (Except.error e) ttl).2.1 (obs_cache_key station) = none ∧
    (fetch_latest_obs_cached t
      (fetch_latest_obs_cached now store station (Except.error e) ttl).2.1
      station fetch2 ttl).2.2 = true ∧
    (fetch_forecast_periods_cached now store lat lon
      (Except.error e) ttl).1 = Except.error e ∧
    (fetch_forecast_periods_cached now store lat lon
      (Except.error e) ttl).2.1 = (cache_get now store (fc_cache_key lat lon)).2 ∧
    dget (fetch_forecast_periods_cached now store lat lon
      (Except.error e) ttl).2.1 (fc_cache_key lat lon) = none ∧
    (fetch_forecast_periods_cached t
      (fetch_forecast_periods_cached now store lat lon
        (Except.error e) ttl).2.1
      lat lon fetch2 ttl).2.2 = true := by
  have hd1 := cache_get_none_dget now store (obs_cache_key station) hm1
  have hd2 := cache_get_none_dget now store (fc_cache_key lat lon) hm2
  have e1 : fetch_latest_obs_cached now store station
      (Except.error e : Except E V) ttl =
      (Except.error e, (cache_get now store (obs_cache_key station)).2, true) := by
    unfold fetch_latest_obs_cached
    unfold cache_get at hm1 ⊢
    cases hd : dget store (obs_cache_key station) with
    | none => rfl
    | some p =>
        obtain ⟨exp, val⟩ := p
        rw [hd] at hm1
        by_cases he : exp ≤ now
        · simp [hd, he]
        · simp [he] at hm1
  have e2 : fetch_forecast_periods_cached now store lat lon
      (Except.error e : Except E V) ttl =
      (Except.error e, (cache_get now store (fc_cache_key lat lon)).2, true) := by
    unfold fetch_forecast_periods_cached
    unfold cache_get at hm2 ⊢
    cases hd : dget store (fc_cache_key lat lon) with
    | none => rfl
    | some p =>
        obtain ⟨exp, val⟩ := p
        rw [hd] at hm2
        by_cases he : exp ≤ now
        · simp [hd, he]
        · simp [he] at hm2
  refine ⟨by rw [e1], by rw [e1], by rw [e1]; exact hd1, ?_, by rw [e2],
    by rw [e2], by rw [e2]; exact hd2, ?_⟩
  · rw [e1]
    exact obs_cached_unbound_attempts t _ station fetch2 ttl hd1
  · rw [e2]
    exact fc_cached_unbound_attempts t _ lat lon fetch2 ttl hd2

theorem failed_fetch_writes_nothing_witness :
    (fetch_latest_obs_cached 0 ([] : CacheStore ℕ) "KMWL"
      (Except.error ()) 300).1 = Except.error () ∧
    dget (fetch_latest_obs_cached 0 ([] : CacheStore ℕ) "KMWL"
      (Except.error ()) 300).2.1 (obs_cache_key "KMWL") = none ∧
    (fetch_latest_obs_cached 1
      (fetch_latest_obs_cached 0 ([] : CacheStore ℕ) "KMWL"
        (Except.error ()) 300).2.1
      "KMWL" (Except.error ()) 300).2.2 = true := by
  have h := failed_fetch_writes_nothing (V := ℕ) 0 1 [] "KMWL" 1 2 300 ()
    (Except.error ()) rfl rfl
  exact ⟨h.1, h.2.2.1, h.2.2.2.1⟩

/-! Haversine distance and the nearest-station resolver
(src/main.py lines 288-326)

Latitude/longitude and the trigonometry are embedded over the reals;
the functions `math.sin`, `math.cos`, `math.asin`, `math.sqrt` and
`math.radians` become `Real.sin`, `Real.cos`, `Real.arcsin`, `Real.sqrt`
and degree-to-radian conversion. -/

/-- The conversion `math.radians(x)`: degrees to radians. -/
noncomputable def radians (x : ℝ) : ℝ := x * Real.pi / 180

/-- The helper `_haversine_km(lat1, lon1, lat2, lon2)` (src/main.py
288-294): great-circle distance with Earth radius `R = 6371.0088` km. -/
noncomputable def _haversine_km (lat1 lon1 lat2 lon2 : ℝ) : ℝ :=
  let R : ℝ := 6371.0088
  let p1 := radians lat1
  let p2 := radians lat2
  let dphi := radians (lat2 - lat1)
  let dlmb := radians (lon2 - lon1)
  let a := Real.sin (dphi/2)^2 + Real.cos p1 * Real.cos p2 * Real.sin (dlmb/2)^2
  2*R*Real.arcsin (Real.sqrt a)

theorem haversine_symm (lat1 lon1 lat2 lon2 : ℝ) :
    _haversine_km lat1 lon1 lat2 lon2 = _haversine_km lat2 lon2 lat1 lon1 := by
  simp only [_haversine_km, radians]
  have hs : ∀ x : ℝ, Real.sin (-x/2)^2 = Real.sin (x/2)^2 := by
    intro x
    rw [neg_div, Real.sin_neg]
    ring
  have e1 : (lat1 - lat2) * Real.pi / 180 = -((lat2 - lat1) * Real.pi / 180) := by
    ring
  have e2 : (lon1 - lon2) * Real.pi / 180 = -((lon2 - lon1) * Real.pi / 180) := by
    ring
  rw [e1, e2, hs, hs,
    mul_comm (Real.cos (lat2 * Real.pi / 180)) (Real.cos (lat1 * Real.pi / 180))]

theorem haversine_diag (lat lon : ℝ) : _haversine_km lat lon lat lon = 0 := by
  simp [_haversine_km, radians]

/-- C5: the haversine distance of src/main.py is symmetric in its two
points and zero on the diagonal. -/
theorem haversine_symm_and_diag (lat1 lon1 lat2 lon2 : ℝ) :
    _haversine_km lat1 lon1 lat2 lon2 = _haversine_km lat2 lon2 lat1 lon1 ∧
    _haversine_km lat1 lon1 lat1 lon1 = 0 :=
  ⟨haversine_symm lat1 lon1 lat2 lon2, haversine_diag lat1 lon1⟩

theorem two_R_arcsin_lt (y : ℝ) :
    2 * (6371.0088 : ℝ) * Real.arcsin y < 1e9 := by
  have h1 := Real.arcsin_le_pi_div_two y
  have h2 := Real.pi_lt_four
  nlinarith

/-- Every haversine value is below the `1e9` sentinel that initializes
`best_d` in the station loop, so the first valid candidate always wins
against the sentinel. -/
theorem haversine_lt_1e9 (lat1 lon1 lat2 lon2 : ℝ) :
    _haversine_km lat1 lon1 lat2 lon2 < 1e9 := by
  simp only [_haversine_km, radians]
  exact two_R_arcsin_lt _

set_option maxHeartbeats 1000000 in
/-- The distance from query point (0.1, 0.1) to candidate A at (0, 0) is
at most the distance to candidate B at (1, 1). -/
theorem exampleA_le_B :
    _haversine_km 0.1 0.1 0 0 ≤ _haversine_km 0.1 0.1 1 1 := by
  simp only [_haversine_km, radians]
  apply mul_le_mul_of_nonneg_left _ (by norm_num : (0:ℝ) ≤ 2 * 6371.0088)
  apply Real.monotone_arcsin
  apply Real.sqrt_le_sqrt
  have e1 : ((0:ℝ) - 0.1) * Real.pi / 180 / 2 = -(Real.pi/3600) := by ring
  have e2 : ((1:ℝ) - 0.1) * Real.pi / 180 / 2 = 9*(Real.pi/3600) := by ring
  have e3 : (0.1:ℝ) * Real.pi / 180 = 2*(Real.pi/3600) := by ring
  have e4 : (0:ℝ) * Real.pi / 180 = 0 := by ring
  have e5 : (1:ℝ) * Real.pi / 180 = 20*(Real.pi/3600) := by ring
  rw [e1, e2, e3, e4, e5, Real.sin_neg, Real.cos_zero, neg_sq]
  have hπl := Real.pi_gt_three
  have hπu := Real.pi_lt_four
  have h0 : (0:ℝ) < Real.pi/3600 := by positivity
  have hsin1 : Real.sin (Real.pi/3600) < Real.pi/3600 := Real.sin_lt h0
  have hsin0 : 0 ≤ Real.sin (Real.pi/3600) :=
    Real.sin_nonneg_of_nonneg_of_le_pi (le_of_lt h0) (by nlinarith)
  have h9 : (0:ℝ) < 9*(Real.pi/3600) := by positivity
  have h9u : 9*(Real.pi/3600) ≤ 1 := by nlinarith
  have hcube := Real.sin_gt_sub_cube h9 h9u
  have hc2 : 0 ≤ Real.cos (2*(Real.pi/3600)) := by
    apply Real.cos_nonneg_of_mem_Icc
    constructor
    · nlinarith
    · nlinarith
  have hc2u : Real.cos (2*(Real.pi/3600)) ≤ 1 := Real.cos_le_one _
  have hc20 : 0 ≤ Real.cos (20*(Real.pi/3600)) := by
    apply Real.cos_nonneg_of_mem_Icc
    constructor
    · nlinarith
    · nlinarith
  have hc20u : Real.cos (20*(Real.pi/3600)) ≤ 1 := Real.cos_le_one _
  have hstep : 2*(Real.pi/3600) ≤ Real.sin (9*(Real.pi/3600)) := by
    nlinarith [hcube, h0, mul_pos h0 h0, mul_pos (mul_pos h0 h0) h0]
  have hsq : Real.sin (Real.pi/3600)^2 ≤ (Real.pi/3600)^2 := by nlinarith
  have hsin9nn : 0 ≤ Real.sin (9*(Real.pi/3600)) := by nlinarith [hstep, h0]
  nlinarith [hstep, hsq, hc2u, hc2, hc20, hc20u, hsin0, hsin9nn, h0,
    sq_nonneg (Real.sin (Real.pi/3600)), sq_nonneg (Real.sin (9*(Real.pi/3600))),
    mul_nonneg hc2 hc20]

/-- One record of the `features` array of the stations collection:
`properties.stationIdentifier`, and `geometry.coordinates` as the
`[longitude, latitude]` pair when the geometry carries one (either
component may individually be null). -/
structure StationFeature where
  stationIdentifier : Option String
  coordinates : Option (Option ℝ × Option ℝ)

/-- Candidate validity as tested by the loop guard
`if sid and slat is not None and slon is not None`: a truthy (non-empty)
identifier and both coordinate components present. -/
def featOk (f : StationFeature) : Bool :=
  match f.stationIdentifier, (f.coordinates.getD (none, none)).2,
    (f.coordinates.getD (none, none)).1 with
  | some sid, some _, some _ => !(sid == "")
  | _, _, _ => false

/-- Haversine distance from the query point to a candidate, defaulting
absent components to 0 (only ever applied to valid candidates). -/
noncomputable def featDist (lat lon : ℝ) (f : StationFeature) : ℝ :=
  _haversine_km lat lon ((f.coordinates.getD (none, none)).2.getD 0)
    ((f.coordinates.getD (none, none)).1.getD 0)

open scoped Classical in
/-- The body of the `for f in features` loop of
`find_nearest_nws_station`: read `sid`, unpack `coords` (defaulting to
`[None, None]` when the geometry has no coordinates), skip invalid
candidates, and keep a candidate exactly when strictly closer than the
current best. -/
noncomputable def stepNearest (lat lon : ℝ) (acc : Option String × ℝ)
    (f : StationFeature) : Option String × ℝ :=
  match f.stationIdentifier, (f.coordinates.getD (none, none)).2,
    (f.coordinates.getD (none, none)).1 with
  | some sid, some slat, some slon =>
      if sid = "" then acc
      else if _haversine_km lat lon slat slon < acc.2 then
        (some sid, _haversine_km lat lon slat slon)
      else acc
  | _, _, _ => acc

/-- The `for` loop itself, threading `(best_id, best_d)`. -/
noncomputable def loopNearest (lat lon : ℝ) :
    List StationFeature → (Option String × ℝ) → Option String × ℝ
  | [], acc => acc
  | f :: rest, acc => loopNearest lat lon rest (stepNearest lat lon acc f)

open scoped Classical in
/-- The function `find_nearest_nws_station(lat, lon)` (src/main.py
296-326), with the two fetched payloads passed in explicitly:
`observationStations` is the URL field of the point metadata (`none`
when absent; Python also treats an empty string as missing), and
`features` is the candidate list fetched from it. -/
noncomputable def find_nearest_nws_station (lat lon : ℝ)
    (observationStations : Option String)
    (features : List StationFeature) : Option String :=
  match observationStations with
  | none => none
  | some url =>
      if url = "" then none
      else if features = [] then none
      else (loopNearest lat lon features (none, 1e9)).1

theorem stepNearest_skip (lat lon : ℝ) (acc : Option String × ℝ)
    (f : StationFeature) (h : featOk f = false) :
    stepNearest lat lon acc f = acc := by
  cases h1 : f.stationIdentifier with
  | none => simp [stepNearest, h1]
  | some sid =>
      cases h2 : (f.coordinates.getD (none, none)).2 with
      | none => simp [stepNearest, h1, h2]
      | some slat =>
          cases h3 : (f.coordinates.getD (none, none)).1 with
          | none => simp [stepNearest, h1, h2, h3]
          | some slon =>
              have hsid : sid = "" := by
                unfold featOk at h
                rw [h1, h2, h3] at h
                simpa using h
              simp [stepNearest, h1, h2, h3, hsid]

theorem stepNearest_update (lat lon : ℝ) (acc : Option String × ℝ)
    (f : StationFeature) (h : featOk f = true)
    (hd : featDist lat lon f < acc.2) :
    stepNearest lat lon acc f = (f.stationIdentifier, featDist lat lon f) := by
  cases h1 : f.stationIdentifier with
  | none =>
      unfold featOk at h
      rw [h1] at h
      simp at h
  | some sid =>
      cases h2 : (f.coordinates.getD (none, none)).2 with
      | none =>
          unfold featOk at h
          rw [h1, h2] at h
          simp at h
      | some slat =>
          cases h3 : (f.coordinates.getD (none, none)).1 with
          | none =>
              unfold featOk at h
              rw [h1, h2, h3] at h
              simp at h
          | some slon =>
              have hsid : ¬ sid = "" := by
                unfold featOk at h
                rw [h1, h2, h3] at h
                simpa using h
              have hd' : _haversine_km lat lon slat slon < acc.2 := by
                unfold featDist at hd
                rw [h2, h3] at hd
                simpa using hd
              simp [stepNearest, featDist, h1, h2, h3, hsid, hd']

theorem stepNearest_keep (lat lon : ℝ) (acc : Option String × ℝ)
    (f : StationFeature) (h : featOk f = true)
    (hd : ¬ featDist lat lon f < acc.2) :
    stepNearest lat lon acc f = acc := by
  cases h1 : f.stationIdentifier with
  | none =>
      unfold featOk at h
      rw [h1] at h
      simp at h
  | some sid =>
      cases h2 : (f.coordinates.getD (none, none)).2 with
      | none =>
          unfold featOk at h
          rw [h1, h2] at h
          simp at h
      | some slat =>
          cases h3 : (f.coordinates.getD (none, none)).1 with
          | none =>
              unfold featOk at h
              rw [h1, h2, h3] at h
              simp at h
          | some slon =>
              have hsid : ¬ sid = "" := by
                unfold featOk at h
                rw [h1, h2, h3] at h
                simpa using h
              have hd' : ¬ _haversine_km lat lon slat slon < acc.2 := by
                unfold featDist at hd
                rw [h2, h3] at hd
                simpa using hd
              simp [stepNearest, h1, h2, h3, hsid, hd']

/-- Characterization of the loop from an arbitrary accumulator: either no
valid candidate beats the accumulator (which is then returned unchanged),
or the result is the first valid candidate achieving the minimum distance
among those beating the accumulator — strictly closer than every valid
candidate before it and at least as close as every valid candidate after
it. -/
theorem loopNearest_spec (lat lon : ℝ) (l : List StationFeature) :
    ∀ acc : Option String × ℝ,
    (loopNearest lat lon l acc = acc ∧
      ∀ g ∈ l, featOk g = true → acc.2 ≤ featDist lat lon g) ∨
    (∃ l1 f l2, l = l1 ++ f :: l2 ∧ featOk f = true ∧
      loopNearest lat lon l acc = (f.stationIdentifier, featDist lat lon f) ∧
      featDist lat lon f < acc.2 ∧
      (∀ g ∈ l1, featOk g = true → featDist lat lon f < featDist lat lon g) ∧
      (∀ g ∈ l2, featOk g = true → featDist lat lon f ≤ featDist lat lon g)) := by
  induction l with
  | nil =>
      intro acc
      left
      exact ⟨rfl, by simp⟩
  | cons x rest ih =>
      intro acc
      by_cases hok : featOk x = true
      · by_cases hd : featDist lat lon x < acc.2
        · have hstep := stepNearest_update lat lon acc x hok hd
          rcases ih (x.stationIdentifier, featDist lat lon x) with
            ⟨heq, hall⟩ | ⟨l1, f, l2, hsplit, hokf, heq, hlt, hbefore, hafter⟩
          · right
            refine ⟨[], x, rest, rfl, hok, ?_, hd, by simp, ?_⟩
            · simp only [loopNearest]
              rw [hstep, heq]
            · intro g hg hgok
              exact hall g hg hgok
          · right
            refine ⟨x :: l1, f, l2, by rw [hsplit, List.cons_append], hokf,
              ?_, ?_, ?_, hafter⟩
            · simp only [loopNearest]
              rw [hstep, heq]
            · exact lt_trans hlt hd
            · intro g hg hgok
              rcases List.mem_cons.1 hg with hgx | hgl1
              · rw [hgx]
                exact hlt
              · exact hbefore g hgl1 hgok
        · have hstep := stepNearest_keep lat lon acc x hok hd
          rcases ih acc with ⟨heq, hall⟩ |
            ⟨l1, f, l2, hsplit, hokf, heq, hlt, hbefore, hafter⟩
          · left
            refine ⟨by simp only [loopNearest]; rw [hstep, heq], ?_⟩
            intro g hg hgok
            rcases List.mem_cons.1 hg with hgx | hgr
            · rw [hgx]
              exact le_of_not_lt hd
            · exact hall g hgr hgok
          · right
            refine ⟨x :: l1, f, l2, by rw [hsplit, List.cons_append], hokf,
              by simp only [loopNearest]; rw [hstep, heq], hlt, ?_, hafter⟩
            intro g hg hgok
            rcases List.mem_cons.1 hg with hgx | hgl1
            · rw [hgx]
              exact lt_of_lt_of_le hlt (le_of_not_lt hd)
            · exact hbefore g hgl1 hgok
      · have hstep := stepNearest_skip lat lon acc x (by simpa using hok)
        rcases ih acc with ⟨heq, hall⟩ |
          ⟨l1, f, l2, hsplit, hokf, heq, hlt, hbefore, hafter⟩
        · left
          refine ⟨by simp only [loopNearest]; rw [hstep, heq], ?_⟩
          intro g hg hgok
          rcases List.mem_cons.1 hg with hgx | hgr
          · rw [hgx] at hgok
            exact absurd hgok hok
          · exact hall g hgr hgok
        · right
          refine ⟨x :: l1, f, l2, by rw [hsplit, List.cons_append], hokf,
            by simp only [loopNearest]; rw [hstep, heq], hlt, ?_, hafter⟩
          intro g hg hgok
          rcases List.mem_cons.1 hg with hgx | hgl1
          · rw [hgx] at hgok
            exact absurd hgok hok
          · exact hbefore g hgl1 hgok

/-- Candidate A of the synthetic two-station example: id "A" at
latitude 0, longitude 0. -/
def featA : StationFeature := ⟨some "A", some (some 0, some 0)⟩

/-- Candidate B of the synthetic two-station example: id "B" at
latitude 1, longitude 1. -/
def featB : StationFeature := ⟨some "B", some (some 1, some 1)⟩

theorem featDist_lt_1e9 (lat lon : ℝ) (f : StationFeature) :
    featDist lat lon f < 1e9 := by
  unfold featDist
  exact haversine_lt_1e9 _ _ _ _

/-- C1: for every fetched candidate list holding at least one valid
candidate, the resolver returns the identifier of a valid candidate whose
haversine distance to the query point is minimal among valid candidates,
candidates lacking an identifier or a coordinate component are skipped,
and exact-distance ties go to the first-encountered candidate (every
valid candidate strictly earlier in the list is strictly farther); in
particular on the two-candidate list A(0,0), B(1,1) with query point
(0.1, 0.1) it returns "A". -/
theorem find_nearest_minimal :
    (∀ (lat lon : ℝ) (url : String) (features : List StationFeature),
      url ≠ "" → (∃ f ∈ features, featOk f = true) →
      ∃ l1 f l2, features = l1 ++ f :: l2 ∧ featOk f = true ∧
        find_nearest_nws_station lat lon (some url) features =
          f.stationIdentifier ∧
        (∀ g ∈ l1, featOk g = true → featDist lat lon f < featDist lat lon g) ∧
        (∀ g ∈ features, featOk g = true →
          featDist lat lon f ≤ featDist lat lon g)) ∧
    find_nearest_nws_station 0.1 0.1 (some "https://api.weather.gov/x")
      [featA, featB] = some "A" := by
  constructor
  · intro lat lon url features hurl hex
    obtain ⟨f0, hf0mem, hf0ok⟩ := hex
    have hne : features ≠ [] := by
      rintro rfl
      simp at hf0mem
    rcases loopNearest_spec lat lon features (none, 1e9) with ⟨heq, hall⟩ |
      ⟨l1, f, l2, hsplit, hokf, heq, hlt, hbefore, hafter⟩
    · exact absurd (hall f0 hf0mem hf0ok)
        (not_le.2 (featDist_lt_1e9 lat lon f0))
    · refine ⟨l1, f, l2, hsplit, hokf, ?_, hbefore, ?_⟩
      · simp only [find_nearest_nws_station]
        rw [if_neg hurl, if_neg hne, heq]
      · intro g hg hgok
        rw [hsplit] at hg
        rcases List.mem_append.1 hg with hg1 | hg2
        · exact le_of_lt (hbefore g hg1 hgok)
        · rcases List.mem_cons.1 hg2 with hgf | hgl2
          · rw [hgf]
          · exact hafter g hgl2 hgok
  · have hAok : featOk featA = true := rfl
    have hBok : featOk featB = true := rfl
    have hdA : featDist 0.1 0.1 featA = _haversine_km 0.1 0.1 0 0 := rfl
    have hdB : featDist 0.1 0.1 featB = _haversine_km 0.1 0.1 1 1 := rfl
    have s1 : stepNearest 0.1 0.1 (none, (1e9 : ℝ)) featA =
        (some "A", featDist 0.1 0.1 featA) := by
      have h := stepNearest_update 0.1 0.1 (none, (1e9 : ℝ)) featA hAok
        (by rw [hdA]; exact lt_of_lt_of_le (haversine_lt_1e9 _ _ _ _) (le_refl _))
      rw [h]
      rfl
    have s2 : stepNearest 0.1 0.1 (some "A", featDist 0.1 0.1 featA) featB =
        (some "A", featDist 0.1 0.1 featA) := by
      apply stepNearest_keep 0.1 0.1 _ featB hBok
      rw [hdB]
      exact not_lt.2 (by rw [hdA] at *; exact exampleA_le_B)
    simp only [find_nearest_nws_station]
    rw [if_neg (by simp : ¬("https://api.weather.gov/x" = "")),
      if_neg (by simp : ¬([featA, featB] = ([] : List StationFeature)))]
    simp only [loopNearest]
    rw [s1, s2]

theorem find_nearest_minimal_witness :
    ∃ l1 f l2, ([featA, featB] : List StationFeature) = l1 ++ f :: l2 ∧
      featOk f = true ∧
      find_nearest_nws_station 0.1 0.1 (some "u") [featA, featB] =
        f.stationIdentifier ∧
      (∀ g ∈ l1, featOk g = true →
        featDist 0.1 0.1 f < featDist 0.1 0.1 g) ∧
      (∀ g ∈ ([featA, featB] : List StationFeature), featOk g = true →
        featDist 0.1 0.1 f ≤ featDist 0.1 0.1 g) :=
  find_nearest_minimal.1 0.1 0.1 "u" [featA, featB] (by simp)
    ⟨featA, by simp, rfl⟩

/-- C6: with an empty candidate list, or with no stations URL in the
point metadata, the resolver returns the absent result `none` rather
than a station identifier (and, being a total function, raises nothing). -/
theorem resolver_empty_absent (lat lon : ℝ)
    (observationStations : Option String)
    (features : List StationFeature) :
    find_nearest_nws_station lat lon observationStations [] = none ∧
    find_nearest_nws_station lat lon none features = none := by
  constructor
  · cases observationStations with
    | none => rfl
    | some url =>
        simp only [find_nearest_nws_station]
        by_cases h : url = "" <;> simp [h]
  · rfl

end WxBot
